import Mathlib

/-!
Shallow embedding of `reprozip/main.py` (the reprozip command-line front end)
and, where the claims concern components that live outside this source tree
(the `_pytracer` extension and the provenance store writer), models taken
from the specification.  Strings are modelled as `List Char`; Python's
`str.split(sep)` for a one-character separator coincides with `List.splitOn`.
-/

namespace Reprozip

/-- The NUL character used as the `argv` separator. -/
def nulChar : Char := Char.ofNat 0

/-- Embedding of `print_db`'s argv parsing (main.py lines 86-88):
`argv = r_argv.split('\0'); if not argv[-1]: argv = argv[:-1]`.
Python's `split` on a one-character separator is `List.splitOn`; the final
segment is dropped exactly when it is the empty string. -/
def parseArgv (r_argv : List Char) : List (List Char) :=
  let argv := r_argv.splitOn nulChar
  if argv.getLast? = some [] then argv.dropLast else argv

/-- Modelled from the spec: `argv` is "serialized as NUL-separated segments
with an optional trailing separator" (§3, ExecutedFile; the store writer that
performs the serialization is the `_pytracer` extension, not in this tree). -/
def joinArgv (args : List (List Char)) (trailing : Bool) : List Char :=
  [nulChar].intercalate args ++ (if trailing then [nulChar] else [])

/-- The element-0 access `argv[0]` performed by `print_db` (main.py line 90),
modelled as an `Option`: `none` is Python's `IndexError`. -/
def printDbArgvHead (r_argv : List Char) : Option (List Char) :=
  (parseArgv r_argv).head?

/-- Modelled from the spec: the exit-code encoding (§6): "value in [0,255] =
normal exit status; value with bit 0x0100 set, low byte = signal number, means
terminated by that signal".  The encoder is the `_pytracer` extension, which is
not in this source tree. -/
def encodeExit (signaled : Bool) (v : Nat) : Nat :=
  if signaled then 0x0100 ||| v else v

/-- Embedding of testrun's decoding of the tracer's exit code (main.py
lines 145-150): `c & 0x0100` decides whether the run was signal-terminated,
and in that case the reported number is `c & 0xFF`. -/
def decodeExit (c : Nat) : Bool × Nat :=
  if c &&& 0x0100 ≠ 0 then (true, c &&& 0xFF) else (false, c)

/-- Embedding of print_db's exit-column formatting (main.py lines 60-63): when
bit 0x0100 of `r_exit` is set the row is rendered as `"sig%d" % r_exit` — the
number shown is the raw value, not masked — otherwise as the value itself.
The Bool records whether the "sig" prefix is printed. -/
def printDbExitField (r_exit : Nat) : Bool × Nat :=
  if r_exit &&& 0x0100 ≠ 0 then (true, r_exit) else (false, r_exit)

/-- Embedding of testrun's end-of-run warning (main.py lines 145-150):
nothing is printed for exit code 0; a signal message with the masked number
for a signal-encoded code; a non-zero-exit message with the code otherwise. -/
inductive ExitReport where
  | quiet : ExitReport
  | signalMsg (n : Nat) : ExitReport
  | codeMsg (c : Nat) : ExitReport
deriving DecidableEq

/-- The report testrun produces for the code returned by the tracer. -/
def testrunReport (c : Nat) : ExitReport :=
  if c ≠ 0 then
    if c &&& 0x0100 ≠ 0 then ExitReport.signalMsg (c &&& 0xFF)
    else ExitReport.codeMsg c
  else ExitReport.quiet

/-- The encoded exit code a reader can reconstruct from testrun's report,
using the documented encoding (signal message ↦ 0x0100 with the low byte). -/
def reportedCode : ExitReport → Option Nat
  | ExitReport.quiet => none
  | ExitReport.signalMsg n => some (0x0100 ||| n)
  | ExitReport.codeMsg c => some c

/-- One row of the `processes` table. -/
structure ProcessRow where
  id : Nat
  parent : Option Nat
  timestamp : Int
  exitcode : Nat
deriving DecidableEq

/-- Modelled from the spec: the launch interface "returns the root process's
final exit code (propagated from `Process.exit_code` of the root row)" (§6);
its implementation (`_pytracer.execute`) is not in this source tree.  The root
row is the one with a null parent. -/
def launchReturn (rows : List ProcessRow) : Option Nat :=
  (rows.find? (fun r => r.parent.isNone)).map (fun r => r.exitcode)

/-- Embedding of main's dispatch (main.py lines 293-299): the selected
subcommand runs; any exception it raises is caught and recorded only as the
usage-report result string (the exception's type name), success likewise; then
`sys.exit(0)` runs on both paths.  Result: (usage-report string, exit status). -/
def mainDispatch (run : Except String Unit) : String × Nat :=
  match run with
  | Except.error e => (e, 0)
  | Except.ok _ => ("success", 0)

/-- Modelled from the spec: the provenance store schema (§6), "exact columns,
as consumed by downstream tooling"; the store writer is the `_pytracer`
extension, which is not in this source tree. -/
def storeSchema : List (String × List String) :=
  [("processes", ["id", "parent", "timestamp", "exitcode"]),
   ("executed_files", ["id", "name", "timestamp", "process", "argv"]),
   ("opened_files", ["id", "name", "timestamp", "mode", "process"])]

/-- The three SELECT statements issued by print_db (main.py lines 44-48,
70-74 and 98-102): target table and selected columns, in source order. -/
def printDbQueries : List (String × List String) :=
  [("processes", ["id", "parent", "timestamp", "exitcode"]),
   ("executed_files", ["id", "name", "timestamp", "process", "argv"]),
   ("opened_files", ["id", "name", "timestamp", "mode", "process"])]

/-- A SELECT of the given columns from the given table succeeds against a
schema iff the table exists and every selected column is a column of it. -/
def selectOk (schema : List (String × List String)) (q : String × List String) : Bool :=
  schema.any (fun e => e.1 == q.1 && q.2.all (fun c => e.2.contains c))

/-- Modelled from the spec: the supervisor's tree-shape events (§4.1, §3):
the root Process is created with a null parent, and every fork notification
appends a new Process whose parent is the id of an existing process and whose
id is the next id in creation order (ids are assigned monotonically, root
first).  The tracer itself is the `_pytracer` extension, not in this tree. -/
inductive TraceRun : List ProcessRow → Prop where
  | root (t : Int) (c : Nat) : TraceRun [⟨0, none, t, c⟩]
  | fork (rows : List ProcessRow) (p : Nat) (t : Int) (c : Nat) :
      TraceRun rows → (∃ r ∈ rows, r.id = p) →
      TraceRun (rows ++ [⟨rows.length, some p, t, c⟩])

/-- Embedding of the arg0 handling shared by trace and testrun (main.py
lines 134-137 and 160-163): `argv = [arg0] + cmdline[1:]` when `-a` was
given, else `argv = cmdline`. -/
def buildArgv (arg0 : Option (List Char)) (cmdline : List (List Char)) :
    List (List Char) :=
  match arg0 with
  | some a => a :: cmdline.drop 1
  | none => cmdline

/-- The binary handed to the tracer is always `cmdline[0]` (main.py lines
140 and 164), independent of arg0. -/
def tracedBinary (cmdline : List (List Char)) : Option (List Char) :=
  cmdline.head?

/-- State recording whether testrun's temporary database file exists. -/
structure TempDbState where
  dbExists : Bool
deriving DecidableEq

/-- Python try/finally: run the body, then run the finalizer on the resulting
state whether or not the body raised; the body's outcome is propagated. -/
def tryFinally {α : Type} (body : TempDbState → Except String α × TempDbState)
    (fin : TempDbState → TempDbState) (s : TempDbState) :
    Except String α × TempDbState :=
  ((body s).1, fin (body s).2)

/-- The body of testrun's try block (main.py lines 133-150): run the tracer,
dump the database, print the exit warning.  Each step may raise; a raise
skips the remaining steps.  None of the steps removes the database file. -/
def testrunBody (tracer printdb warn : Except String Unit)
    (s : TempDbState) : Except String Unit × TempDbState :=
  match tracer with
  | Except.error e => (Except.error e, s)
  | Except.ok _ =>
    match printdb with
    | Except.error e => (Except.error e, s)
    | Except.ok _ => (warn, s)

/-- Embedding of testrun's resource handling (main.py lines 131-152): the
temporary database is created before the try block, and the finally clause
removes it (`database.remove()`). -/
def testrunCleanup (tracer printdb warn : Except String Unit) :
    Except String Unit × TempDbState :=
  tryFinally (testrunBody tracer printdb warn) (fun _ => ⟨false⟩) ⟨true⟩

/-- The `.rpz` suffix required by the pack subcommand. -/
def rpzSuffix : List Char := ['.', 'r', 'p', 'z']

/-- Python's `s.lower()` on character-list strings. -/
def lowerStr (s : List Char) : List Char := s.map Char.toLower

/-- Python's `s.endswith(t)`: `t` is a suffix of `s`. -/
def endsWith (s t : List Char) : Bool := decide (t <:+ s)

/-- The final path component (rpaths' `unicodename`): everything after the
last path separator. -/
def basename (s : List Char) : List Char :=
  (s.reverse.takeWhile (fun c => c != '/')).reverse

/-- Embedding of the pack subcommand's target normalization (main.py lines
190-193): if the target's final component, lowercased, does not end in
".rpz", append ".rpz" to the path; otherwise keep the target unchanged. -/
def packTarget (target : List Char) : List Char :=
  if endsWith (lowerStr (basename target)) rpzSuffix then target
  else target ++ rpzSuffix

/-- `[x].intercalate` of a list of lists extended by a final empty segment
appends exactly one separator, provided the list was nonempty. -/
theorem intercalate_append_nil {α : Type} (x : α) (as : List (List α)) (h : as ≠ []) :
    [x].intercalate (as ++ [([] : List α)]) = [x].intercalate as ++ [x] := by
  induction as with
  | nil => exact absurd rfl h
  | cons a as ih =>
    cases as with
    | nil =>
      simp [List.intercalate, List.intersperse_cons_cons]
    | cons b bs =>
      have hne : (b :: bs : List (List α)) ≠ [] := by simp
      have := ih hne
      simp only [List.intercalate] at this ⊢
      simp only [List.cons_append, List.intersperse_cons_cons, List.flatten_cons] at this ⊢
      simp [this, List.append_assoc]

/-- The argv parse fails (yields no segments) exactly on the empty serialized
field: any other input leaves at least one segment after the trailing drop. -/
theorem parseArgv_eq_nil_iff (s : List Char) : parseArgv s = [] ↔ s = [] := by
  constructor
  · intro h
    unfold parseArgv at h
    by_cases hc : (s.splitOn nulChar).getLast? = some []
    · rw [if_pos hc] at h
      have hne : s.splitOn nulChar ≠ [] := by
        simp [List.splitOn]
        exact List.splitOnP_ne_nil _ s
      -- dropLast is empty, so splitOn gave a single segment, which is empty
      have hone : s.splitOn nulChar = [[]] := by
        cases ha : s.splitOn nulChar with
        | nil => exact absurd ha hne
        | cons b bs =>
          cases bs with
          | nil =>
            rw [ha] at hc
            simp at hc
            simp [hc]
          | cons c cs =>
            rw [ha] at h
            simp at h
      have := List.intercalate_splitOn s nulChar
      rw [hone] at this
      simpa [List.intercalate] using this.symm
    · rw [if_neg hc] at h
      exact absurd h (by
        simp [List.splitOn]
        exact List.splitOnP_ne_nil _ s)
  · intro h
    subst h
    decide

set_option maxRecDepth 8192 in
/-- Decode inverts the documented encoding on the whole 0-255 range for both
normal and signaled exits. -/
theorem decodeExit_encodeExit : ∀ s : Bool, ∀ v : Fin 256,
    decodeExit (encodeExit s v.val) = (s, v.val) := by decide

set_option maxRecDepth 8192 in
/-- The report is empty exactly on code 0, and on any valid encoded code the
report losslessly determines the code. -/
theorem testrunReport_lossless : ∀ c : Fin 512,
    (testrunReport c.val = ExitReport.quiet ↔ c.val = 0) ∧
    reportedCode (testrunReport c.val) =
      (if c.val = 0 then none else some c.val) := by decide

/-- In any reachable trace, every row's id is below the table length. -/
theorem traceRun_id_lt {rows : List ProcessRow} (h : TraceRun rows) :
    ∀ r ∈ rows, r.id < rows.length := by
  induction h with
  | root t c =>
    intro r hr
    simp at hr
    subst hr
    simp
  | fork rows p t c _ _ ih =>
    intro r hr
    rcases List.mem_append.mp hr with h1 | h1
    · have := ih r h1
      simp only [List.length_append, List.length_cons, List.length_nil]
      omega
    · simp at h1
      subst h1
      simp

/-- Appending ".rpz" to a path appends it to the final component. -/
theorem basename_append_rpz (t : List Char) :
    basename (t ++ rpzSuffix) = basename t ++ rpzSuffix := by
  unfold basename rpzSuffix
  rw [List.reverse_append]
  show (List.takeWhile _ ('z' :: 'p' :: 'r' :: '.' :: t.reverse)).reverse = _
  rw [List.takeWhile_cons_of_pos (by decide), List.takeWhile_cons_of_pos (by decide),
      List.takeWhile_cons_of_pos (by decide), List.takeWhile_cons_of_pos (by decide)]
  rw [List.reverse_cons, List.reverse_cons, List.reverse_cons, List.reverse_cons]
  simp [List.append_assoc]

set_option maxRecDepth 8192 in
/-- C1: the exit-code encoding stores 0 for a normal exit of 0 and 0x0109 for
termination by signal 9, and testrun's decode recovers the (status, signaled?)
pair losslessly on all of 0-255 × 0-255; but the claim's consumer conjunct
fails in the code: print_db's exit column renders a signal-9 exit as the raw
encoded value 265 ("sig%d" % r_exit), not as the signal number 9. -/
theorem c1_exit_roundtrip_and_display :
    encodeExit false 0 = 0 ∧
    encodeExit true 9 = 0x0109 ∧
    (∀ s : Bool, ∀ v : Fin 256, decodeExit (encodeExit s v.val) = (s, v.val)) ∧
    printDbExitField (encodeExit true 9) = (true, 265) ∧
    (printDbExitField (encodeExit true 9)).2 ≠ 9 := by decide

/-- C2: the NUL round-trip, in the conditions under which it actually holds
on the code: the segments are NUL-free, the sequence does not end in an empty
segment, and the empty sequence is only serialized without a trailing
separator; then join-then-split recovers the sequence exactly, with or
without the trailing separator. -/
theorem parseArgv_joinArgv (args : List (List Char)) (t : Bool)
    (hx : ∀ a ∈ args, nulChar ∉ a)
    (hlast : args.getLast? ≠ some [])
    (hempty : args = [] → t = false) :
    parseArgv (joinArgv args t) = args := by
  rcases List.eq_nil_or_concat args with hnil | ⟨as, a, ha⟩
  · subst hnil
    rw [hempty rfl]
    decide
  · rw [List.concat_eq_append] at ha
    subst ha
    have hne : as ++ [a] ≠ [] := by simp
    cases t with
    | false =>
      unfold joinArgv
      simp only [Bool.false_eq_true, if_false, List.append_nil]
      unfold parseArgv
      rw [List.splitOn_intercalate _ nulChar hx hne]
      rw [if_neg hlast]
    | true =>
      have hx2 : ∀ l ∈ (as ++ [a]) ++ [([] : List Char)], nulChar ∉ l := by
        intro l hl
        rcases List.mem_append.mp hl with h | h
        · exact hx l h
        · simp at h
          simp [h]
      have hne2 : (as ++ [a]) ++ [([] : List Char)] ≠ [] := by simp
      unfold joinArgv
      simp only [if_true]
      rw [← intercalate_append_nil nulChar _ hne]
      unfold parseArgv
      rw [List.splitOn_intercalate _ nulChar hx2 hne2]
      rw [if_pos (by simp)]
      simp

/-- C2 counterexample: the singleton sequence [""] consists of NUL-free
strings, yet joining and re-splitting does not recover it: the trailing-empty
drop erases the only segment and the parse yields []. -/
theorem c2_counterexample :
    (∀ a ∈ [([] : List Char)], nulChar ∉ a) ∧
    parseArgv (joinArgv [([] : List Char)] false) = [] ∧
    parseArgv (joinArgv [([] : List Char)] false) ≠ [([] : List Char)] := by
  decide

/-- C2 witness: the round-trip at ["echo", "hi"] with a trailing separator. -/
theorem c2_witness :
    parseArgv (joinArgv [['e','c','h','o'], ['h','i']] true) =
      [['e','c','h','o'], ['h','i']] :=
  parseArgv_joinArgv [['e','c','h','o'], ['h','i']] true
    (by decide) (by decide) (by decide)

/-- C3: main catches every exception raised by the selected subcommand,
records it only as the usage-report result string, and still exits with
status 0 on every path — a raised LaunchError terminates the process with the
success exit status instead of surfacing the failure. -/
theorem c3_main_swallows_errors :
    mainDispatch (Except.error "LaunchError") = ("LaunchError", 0) ∧
    ∀ r : Except String Unit, (mainDispatch r).2 = 0 := by
  refine ⟨rfl, ?_⟩
  intro r
  cases r <;> rfl

/-- C4: the launch interface's return value is the root row's exit code, and
testrun's report of it is faithful: the report is silent exactly on code 0
(a non-zero code is never discarded), and for any valid encoded code the
printed message determines the root's encoded exit code exactly. -/
theorem c4_exit_code_reported (rows : List ProcessRow) (c : Nat)
    (hroot : launchReturn rows = some c) (hvalid : c < 512) :
    (testrunReport c = ExitReport.quiet ↔ c = 0) ∧
    (c ≠ 0 → reportedCode (testrunReport c) = launchReturn rows) := by
  have h := testrunReport_lossless ⟨c, hvalid⟩
  refine ⟨h.1, fun hc => ?_⟩
  rw [hroot, h.2, if_neg hc]

/-- C4 witness: a root terminated by signal 9 (encoded code 265). -/
theorem c4_witness :
    (testrunReport 265 = ExitReport.quiet ↔ (265 : Nat) = 0) ∧
    ((265 : Nat) ≠ 0 → reportedCode (testrunReport 265) =
      launchReturn [⟨0, none, 0, 265⟩]) :=
  c4_exit_code_reported [⟨0, none, 0, 265⟩] 265 (by decide) (by decide)

/-- C5: print_db's three SELECT statements name exactly the documented tables
and columns, so every downstream read of the store in this repository
succeeds against the specified schema. -/
theorem c5_schema_queries :
    printDbQueries.all (selectOk storeSchema) = true ∧
    printDbQueries = storeSchema := by
  exact ⟨by decide, rfl⟩

/-- C6: in every traced run, the processes table is a forest: the parent is
null for exactly one row (the root), and every other row's parent references
an existing row with a strictly smaller id — in particular the parent graph
is acyclic. -/
theorem c6_parent_forest {rows : List ProcessRow} (h : TraceRun rows) :
    (rows.filter (fun r => r.parent.isNone)).length = 1 ∧
    ∀ r ∈ rows, ∀ p, r.parent = some p →
      p < r.id ∧ ∃ q ∈ rows, q.id = p := by
  induction h with
  | root t c =>
    refine ⟨by simp, ?_⟩
    intro r hr p hp
    simp at hr
    subst hr
    simp at hp
  | fork rows p t c htr hex ih =>
    obtain ⟨ih1, ih2⟩ := ih
    constructor
    · rw [List.filter_append]
      simp [ih1]
    · intro r hr q hq
      rcases List.mem_append.mp hr with h1 | h1
      · obtain ⟨hlt, w, hw, hwid⟩ := ih2 r h1 q hq
        exact ⟨hlt, w, List.mem_append.mpr (Or.inl hw), hwid⟩
      · simp at h1
        subst h1
        simp at hq
        obtain ⟨w, hw, hwid⟩ := hex
        have hwlt := traceRun_id_lt htr w hw
        refine ⟨?_, w, List.mem_append.mpr (Or.inl hw), ?_⟩
        · show q < rows.length
          omega
        · omega

/-- C6 witness: a root and one forked child. -/
theorem c6_witness :
    (([⟨0, none, 0, 0⟩, ⟨1, some 0, 5, 7⟩] : List ProcessRow).filter
        (fun r => r.parent.isNone)).length = 1 ∧
    ∀ r ∈ ([⟨0, none, 0, 0⟩, ⟨1, some 0, 5, 7⟩] : List ProcessRow),
      ∀ p, r.parent = some p →
        p < r.id ∧
        ∃ q ∈ ([⟨0, none, 0, 0⟩, ⟨1, some 0, 5, 7⟩] : List ProcessRow),
          q.id = p :=
  c6_parent_forest
    (TraceRun.fork [⟨0, none, 0, 0⟩] 0 5 7 (TraceRun.root 0 0) (by decide))

/-- C7: trace and testrun keep the program path and the argument vector
separate: the traced binary is always cmdline[0]; with -a the constructed
argv is arg0 followed by the command line's remaining arguments; without -a
the argv is the command line as given. -/
theorem c7_arg0_argv (cmdline : List (List Char)) (h : cmdline ≠ []) :
    tracedBinary cmdline = some (cmdline.head h) ∧
    buildArgv none cmdline = cmdline ∧
    ∀ a, buildArgv (some a) cmdline = a :: cmdline.tail := by
  cases cmdline with
  | nil => exact absurd rfl h
  | cons x xs =>
    refine ⟨rfl, rfl, ?_⟩
    intro a
    rfl

/-- C7 witness: the command line ["ls", "-l"]. -/
theorem c7_witness :
    tracedBinary [['l','s'], ['-','l']] =
      some (([['l','s'], ['-','l']] : List (List Char)).head (by decide)) ∧
    buildArgv none [['l','s'], ['-','l']] = [['l','s'], ['-','l']] ∧
    ∀ a, buildArgv (some a) [['l','s'], ['-','l']] =
      a :: ([['l','s'], ['-','l']] : List (List Char)).tail :=
  c7_arg0_argv [['l','s'], ['-','l']] (by decide)

/-- C8: testrun removes its temporary database on every outcome: whatever
combination of tracer, database-dump and warning outcomes occurs (normal or
raising), the finally clause leaves the file removed, and the body's outcome
is propagated to the caller unchanged. -/
theorem c8_testrun_cleanup (tracer printdb warn : Except String Unit) :
    (testrunCleanup tracer printdb warn).2.dbExists = false ∧
    (testrunCleanup tracer printdb warn).1 =
      (testrunBody tracer printdb warn ⟨true⟩).1 :=
  ⟨rfl, rfl⟩

/-- C9: pack's target normalization: the produced path's final component
always ends in ".rpz" ignoring case; a target already carrying the suffix in
any case passes through unchanged; any other target gets ".rpz" appended. -/
theorem c9_pack_rpz (t : List Char) :
    endsWith (lowerStr (basename (packTarget t))) rpzSuffix = true ∧
    (endsWith (lowerStr (basename t)) rpzSuffix = true → packTarget t = t) ∧
    (endsWith (lowerStr (basename t)) rpzSuffix = false →
      packTarget t = t ++ rpzSuffix) := by
  by_cases h : endsWith (lowerStr (basename t)) rpzSuffix = true
  · refine ⟨?_, fun _ => ?_, fun hf => ?_⟩
    · rw [packTarget, if_pos h]
      exact h
    · rw [packTarget, if_pos h]
    · rw [h] at hf
      cases hf
  · refine ⟨?_, fun ht => absurd ht h, fun _ => ?_⟩
    · rw [packTarget, if_neg h, basename_append_rpz]
      unfold lowerStr
      rw [List.map_append]
      have hfix : List.map Char.toLower rpzSuffix = rpzSuffix := by decide
      rw [hfix]
      exact decide_eq_true (List.suffix_append _ _)
    · rw [packTarget, if_neg h]

/-- C9 witness: "exp" gains the suffix; "a.RPZ" passes through unchanged. -/
theorem c9_witness :
    packTarget ['e','x','p'] = ['e','x','p'] ++ rpzSuffix ∧
    packTarget ['a','.','R','P','Z'] = ['a','.','R','P','Z'] :=
  ⟨(c9_pack_rpz ['e','x','p']).2.2 (by decide),
   (c9_pack_rpz ['a','.','R','P','Z']).2.1 (by decide)⟩

/-- C10 counterexample: an argv field holding a single NUL separator does not
make print_db fail: it parses to the one-element sequence [""] and the
element-0 access yields the empty string. -/
theorem c10_counterexample :
    parseArgv [nulChar] ≠ [] ∧ printDbArgvHead [nulChar] = some [] := by
  decide

/-- C10: print_db's argv handling is partial exactly on the empty argv
field: the parsed sequence is empty — and the element-0 access fails —
iff the stored argv string is empty. -/
theorem c10_argv_totality (s : List Char) :
    (printDbArgvHead s = none ↔ s = []) ∧ (parseArgv s = [] ↔ s = []) := by
  have h := parseArgv_eq_nil_iff s
  constructor
  · rw [printDbArgvHead, List.head?_eq_none_iff]
    exact h
  · exact h

end Reprozip
